import Mathlib

/-!
Verification development for the `content-scribe-archive` repository (a
browser-based "read later" / RSS knowledge-management application).

The development shallowly embeds the three testable components of the
source — the RSS/Atom feed parser (`src/services/rssParser.ts`), the
HTML-to-markdown converter (`src/services/urlToMarkdown.ts`), and the
article store (`src/services/storageService.ts`) plus the summarizer's
local credential check (`src/services/aiSummarizer.ts`) — as executable
Lean definitions, and proves the specification's claims about them.

Modelling conventions:
* A parsed XML/HTML document is a forest of `XNode` trees (the output of
  `DOMParser.parseFromString`); HTML tag names are stored lowercase, as
  the HTML parser normalizes them.
* JavaScript's `a || b` on strings (where only `""` is falsy in the ways
  the source uses it) is `jsOr`.
* `String.prototype.trim`, `toLowerCase`, and `includes` are re-implemented
  over character lists (`trimStr`, `lowerStr`, `strIncludes`) so that all
  definitions evaluate inside the kernel.
* Effects are explicit inputs: the clock is a `now` argument, the random
  identifier suffix is an `entropy` argument, and the network is an oracle
  function whose issued requests are returned alongside the result.
-/

/-- Embeds JavaScript `a || b` for the string positions used by the source:
the only falsy string is `""`, so `a || b` returns `a` unless `a` is empty. -/
def jsOr (a b : String) : String := if a = "" then b else a

/-- Embeds `String.prototype.trim()`: drops leading and trailing whitespace
characters. Implemented over the character list so it reduces in the kernel. -/
def trimStr (s : String) : String :=
  String.mk (((s.data.dropWhile Char.isWhitespace).reverse.dropWhile Char.isWhitespace).reverse)

/-- Embeds `String.prototype.toLowerCase()` (ASCII case folding). -/
def lowerStr (s : String) : String := String.mk (s.data.map Char.toLower)

/-- Embeds `String.prototype.includes(pat)`: `pat` occurs as a contiguous
substring of `s` (every string includes the empty string). -/
def strIncludes (s pat : String) : Bool :=
  (List.range (s.data.length + 1)).any (fun i => (s.data.drop i).take pat.data.length = pat.data)

/-- Splits a character list into maximal whitespace-free tokens; used to read
an HTML `class` attribute as a set of class names. -/
def wsTokensAux : List Char → List Char → List (List Char)
  | [], acc => if acc.isEmpty then [] else [acc.reverse]
  | c :: cs, acc =>
      if c.isWhitespace then
        if acc.isEmpty then wsTokensAux cs [] else acc.reverse :: wsTokensAux cs []
      else wsTokensAux cs (c :: acc)

/-- Does the (space-separated) `class` attribute value `attrVal` contain the
class name `cls`? Embeds CSS class-selector matching on an element. -/
def hasClassToken (attrVal cls : String) : Bool :=
  (wsTokensAux attrVal.data []).any (fun t => String.mk t = cls)

/-- A node of a parsed XML/HTML document: either a text node or an element
with a tag name, an attribute list, and a list of child nodes in document
order. This is the tree `DOMParser.parseFromString` hands to the source. -/
inductive XNode where
  | text (s : String)
  | elem (tag : String) (attrs : List (String × String)) (children : List XNode)
deriving Repr

/-- The child list of a node (`Node.childNodes`); text nodes have none. -/
def children : XNode → List XNode
  | .text _ => []
  | .elem _ _ cs => cs

/-- Embeds `Element.getAttribute`: the value of the first attribute with the
given name, or `none` (JavaScript `null`) when absent. -/
def getAttr (n : XNode) (name : String) : Option String :=
  match n with
  | .text _ => none
  | .elem _ attrs _ => (attrs.find? (fun p => p.1 = name)).map (fun p => p.2)

mutual
/-- Embeds `Node.textContent` for a single node: the concatenation of all
descendant text, in document order. -/
def textContentN : XNode → String
  | .text s => s
  | .elem _ _ cs => textContentF cs
/-- `textContentN` extended to a forest of sibling nodes. -/
def textContentF : List XNode → String
  | [] => ""
  | n :: ns => textContentN n ++ textContentF ns
end

mutual
/-- All elements of the subtree rooted at a node that satisfy `p`, in
document (pre-order) order; the root itself is a candidate. Together with
`collectF` this embeds `querySelectorAll` for the selectors the source uses. -/
def collectN (p : XNode → Bool) : XNode → List XNode
  | .text _ => []
  | .elem t a cs =>
      (if p (.elem t a cs) then [XNode.elem t a cs] else []) ++ collectF p cs
/-- `collectN` extended to a forest: all matching elements of the whole
forest in document order. -/
def collectF (p : XNode → Bool) : List XNode → List XNode
  | [] => []
  | n :: ns => collectN p n ++ collectF p ns
end

/-- Embeds `document.querySelector(sel)` on a parsed document `doc`: the first
element of the whole document, in document order, satisfying `p`. -/
def qselDoc (doc : List XNode) (p : XNode → Bool) : Option XNode :=
  (collectF p doc).head?

/-- Embeds `element.querySelector(sel)`: the first descendant (the element
itself excluded) satisfying `p`, in document order. -/
def qselIn (n : XNode) (p : XNode → Bool) : Option XNode :=
  (collectF p (children n)).head?

/-- Matching of a CSS type selector: an element whose tag name is `t`. -/
def isTag (t : String) (n : XNode) : Bool :=
  match n with
  | .elem t' _ _ => t' = t
  | .text _ => false

mutual
/-- All nodes of a subtree in pre-order (document) order, the root first. -/
def preorderN : XNode → List XNode
  | .text s => XNode.text s :: []
  | .elem t a cs => XNode.elem t a cs :: preorderF cs
/-- `preorderN` extended to a forest. -/
def preorderF : List XNode → List XNode
  | [] => []
  | n :: ns => preorderN n ++ preorderF ns
end

/-- A normalized feed item as produced by the parser
(`RSSItem` in `src/services/rssParser.ts`). -/
structure RSSItem where
  title : String
  link : String
  description : String
  pubDate : String
  author : String
  guid : String
deriving Repr, DecidableEq

/-- A normalized feed (`RSSFeed` in `src/services/rssParser.ts`). -/
structure RSSFeed where
  title : String
  description : String
  link : String
  items : List RSSItem
deriving Repr, DecidableEq

/-- Failures of the feed layer: `malformedFeed` is the
`throw new Error('Invalid RSS/Atom feed')` of `RSSParser.parseRSS`
(the spec's `MalformedFeed`); `selectorSyntax` is the `SyntaxError`
DOMException that `querySelector` throws when handed an invalid selector
string; and `transport` stands for the spec's `TransportFailure` (network /
non-2xx failures, which belong to the caller `fetchAndParse`, never to
`parseRSS` itself). -/
inductive RSSError where
  | malformedFeed
  | selectorSyntax (sel : String)
  | transport (msg : String)
deriving Repr, DecidableEq

/-- The trimmed-text lookup behind `RSSParser.getTextContent` once
`querySelector` has accepted the selector string: the trimmed text of the
first descendant with the given tag, `""` when the tag is absent or its
trimmed text is empty (`element?.textContent?.trim() || ''`). -/
def tagText (parent : XNode) (tagName : String) : String :=
  match qselIn parent (isTag tagName) with
  | some el => jsOr (trimStr (textContentN el)) ""
  | none => ""

/-- The attribute lookup behind `RSSParser.getAttributeContent` once
`querySelector` has accepted the selector string
(`element?.getAttribute(attributeName) || ''`). -/
def tagAttr (parent : XNode) (tagName attrName : String) : String :=
  match qselIn parent (isTag tagName) with
  | some el => jsOr ((getAttr el attrName).getD "") ""
  | none => ""

/-- Does `querySelector(tagName)` throw? The parser hands `querySelector`
plain tag names; within that fragment of the selector grammar a name is an
invalid selector exactly when it contains a `:` — the colon starts a
pseudo-class, and `dc:creator` parses as the type selector `dc` followed by
the unknown pseudo-class `:creator`, so `querySelector('dc:creator')` throws
a `SyntaxError` DOMException whenever it is evaluated. -/
def selectorThrows (tagName : String) : Bool :=
  tagName.data.any (fun c => c = ':')

/-- Embeds `RSSParser.getTextContent(parent, tagName)`:
`parent.querySelector(tagName)` throws on an invalid selector string;
otherwise the call returns `element?.textContent?.trim() || ''`. -/
def getTextContent (parent : XNode) (tagName : String) : Except RSSError String :=
  if selectorThrows tagName then .error (.selectorSyntax tagName)
  else .ok (tagText parent tagName)

/-- Embeds `RSSParser.getAttributeContent(parent, tagName, attributeName)`,
with the same `querySelector` throwing behavior. -/
def getAttributeContent (parent : XNode) (tagName attrName : String) :
    Except RSSError String :=
  if selectorThrows tagName then .error (.selectorSyntax tagName)
  else .ok (tagAttr parent tagName attrName)

/-- JavaScript `a || b` where either operand may throw: evaluate `a`; a
thrown exception propagates; a truthy (non-empty) value short-circuits, so
`b` is never evaluated; on a falsy value evaluate `b`. -/
def jsOrE (a : Except RSSError String) (b : Unit → Except RSSError String) :
    Except RSSError String :=
  match a with
  | .error e => .error e
  | .ok s => if s = "" then b () else .ok s

/-- An element is entry-like when it is an `item` (RSS) or `entry` (Atom);
this is the `'item, entry'` selector list of `RSSParser.parseRSS`. -/
def isEntryLike (n : XNode) : Bool := isTag "item" n || isTag "entry" n

/-- Embeds `Array.prototype.map` with a callback that may throw: the elements
are processed in order and the first thrown exception aborts the map. -/
def mapExcept {α β : Type} (f : α → Except RSSError β) :
    List α → Except RSSError (List β)
  | [] => .ok []
  | x :: xs =>
      match f x with
      | .error e => .error e
      | .ok v =>
          match mapExcept f xs with
          | .error e => .error e
          | .ok vs => .ok (v :: vs)

/-- Embeds the per-item object literal inside `RSSParser.parseRSS`'s
`Array.from(doc.querySelectorAll('item, entry')).map(item => ({...}))`.
The literal's fields are evaluated in source order and each `||` chain
short-circuits, so the `getTextContent(item, 'dc:creator')` fallback — whose
`querySelector` call always throws — is evaluated exactly when the item has
no non-empty `author` text, aborting the whole parse there. -/
def parseRSSItem (item : XNode) : Except RSSError RSSItem := do
  let title ← jsOrE (getTextContent item "title") (fun _ => .ok "Untitled")
  let link ← jsOrE (jsOrE (getTextContent item "link")
      (fun _ => getAttributeContent item "link" "href")) (fun _ => .ok "")
  let description ← jsOrE (jsOrE (jsOrE (getTextContent item "description")
      (fun _ => getTextContent item "summary"))
      (fun _ => getTextContent item "content")) (fun _ => .ok "")
  let pubDate ← jsOrE (jsOrE (jsOrE (getTextContent item "pubDate")
      (fun _ => getTextContent item "published"))
      (fun _ => getTextContent item "updated")) (fun _ => .ok "")
  let author ← jsOrE (jsOrE (getTextContent item "author")
      (fun _ => getTextContent item "dc:creator")) (fun _ => .ok "")
  let guid ← jsOrE (jsOrE (getTextContent item "guid")
      (fun _ => getTextContent item "id")) (fun _ => .ok "")
  .ok { title := title, link := link, description := description,
        pubDate := pubDate, author := author, guid := guid }

/-- Embeds `RSSParser.parseRSS` on an already-parsed XML document: locate the
container (`channel`, else `feed`), failing with `malformedFeed` when neither
exists; extract the feed fields; and map every `item`/`entry` element of the
whole document, in document order, through `parseRSSItem`, a thrown per-item
exception aborting the parse. -/
def parseRSS (doc : List XNode) : Except RSSError RSSFeed :=
  match (qselDoc doc (isTag "channel")).orElse (fun _ => qselDoc doc (isTag "feed")) with
  | none => .error .malformedFeed
  | some channel => do
      let title ← jsOrE (getTextContent channel "title") (fun _ => .ok "Unknown Feed")
      let description ← jsOrE (jsOrE (getTextContent channel "description")
          (fun _ => getTextContent channel "subtitle")) (fun _ => .ok "")
      let link ← jsOrE (getTextContent channel "link") (fun _ => .ok "")
      let items ← mapExcept parseRSSItem (collectF isEntryLike doc)
      .ok { title := title, description := description, link := link, items := items }

/-- Stated from the spec's words (§4.1): the entry-like elements of the whole
document are the `item`/`entry` elements among all nodes in document order. -/
def entryElems (doc : List XNode) : List XNode :=
  (preorderF doc).filter isEntryLike

/-- A CSS selector of one of the three shapes the markdown converter uses:
a type selector (`article`), a class selector (`.content`), or a type
selector qualified by one attribute value (`meta[name="author"]`). -/
inductive Sel where
  | tagSel (t : String)
  | classSel (c : String)
  | attrSel (t : String) (a : String) (v : String)
deriving Repr

/-- Selector matching on a node (text nodes match nothing). -/
def matchesSel (sel : Sel) (n : XNode) : Bool :=
  match sel, n with
  | .tagSel t', .elem t _ _ => t = t'
  | .classSel c, .elem _ attrs _ =>
      hasClassToken (((attrs.find? (fun p => p.1 = "class")).map (fun p => p.2)).getD "") c
  | .attrSel t' a v, .elem t attrs _ =>
      t = t' && ((attrs.find? (fun p => p.1 = a)).map (fun p => p.2) == some v)
  | _, .text _ => false

/-- The fixed removal list of `convertHTMLToMarkdown`:
`['script', 'style', 'nav', 'header', 'footer', '.advertisement', '.sidebar']`. -/
def removalSelectors : List Sel :=
  [.tagSel "script", .tagSel "style", .tagSel "nav", .tagSel "header", .tagSel "footer",
   .classSel "advertisement", .classSel "sidebar"]

mutual
/-- Embeds the removal pass
`elementsToRemove.forEach(sel => doc.querySelectorAll(sel).forEach(el => el.remove()))`:
`el.remove()` detaches the whole subtree, so the net effect on the document is
to drop, top-down, every element matching some removal selector together with
its subtree. Returns `[]` for a removed node and a singleton otherwise. -/
def stripN : XNode → List XNode
  | .text s => [XNode.text s]
  | .elem t a cs =>
      if removalSelectors.any (fun sel => matchesSel sel (.elem t a cs)) then []
      else [XNode.elem t a (stripF cs)]
/-- `stripN` extended to a forest of siblings. -/
def stripF : List XNode → List XNode
  | [] => []
  | n :: ns => stripN n ++ stripF ns
end

/-- The fixed content-selector priority list of `convertHTMLToMarkdown`:
`['article', 'main', '.content', '.post', '.entry']`. -/
def contentSelectors : List Sel :=
  [.tagSel "article", .tagSel "main", .classSel "content", .classSel "post", .classSel "entry"]

/-- Embeds `document.body`: the first `body` element of the document. -/
def docBody (doc : List XNode) : Option XNode := qselDoc doc (isTag "body")

/-- Embeds the content-root loop of `convertHTMLToMarkdown`: try each content
selector in order, first match wins; fall back to `doc.body` when none match.
The function is applied to the document as it stands after the removal pass
(the removal mutates the document in the source). -/
def selectContentRoot (doc : List XNode) : Option XNode :=
  match contentSelectors.findSome? (fun sel => qselDoc doc (matchesSel sel)) with
  | some el => some el
  | none => docBody doc

/-- The content root the conversion of an input document actually uses:
content selection over the document after the removal pass. -/
def contentRootOf (doc : List XNode) : Option XNode :=
  selectContentRoot (stripF doc)

/-- Embeds `URLToMarkdownConverter.processListItems(listElement, marker)`:
every descendant `li` in document order becomes one line, the marker being
`N.` (1-based index) when `marker` is `'1.'` and the marker itself otherwise. -/
def processListItems (listElement : XNode) (marker : String) : String :=
  let items := collectF (isTag "li") (children listElement)
  (items.enum.map (fun p =>
      (if marker = "1." then toString (p.1 + 1) ++ "." else marker)
        ++ " " ++ textContentN p.2 ++ "\n")).foldl (fun a b => a ++ b) ""

mutual
/-- Embeds one iteration of the `for (const node of element.childNodes)` loop
in `URLToMarkdownConverter.htmlToMarkdown`: the markdown contribution of one
child node, dispatching on the lowercased tag name with the source's rule
table, and recursing into children for unknown tags. -/
def nodeToMarkdown : XNode → String
  | .text s => s
  | .elem t a cs =>
      let tagName := lowerStr t
      if tagName = "h1" then "# " ++ textContentF cs ++ "\n\n"
      else if tagName = "h2" then "## " ++ textContentF cs ++ "\n\n"
      else if tagName = "h3" then "### " ++ textContentF cs ++ "\n\n"
      else if tagName = "h4" then "#### " ++ textContentF cs ++ "\n\n"
      else if tagName = "h5" then "##### " ++ textContentF cs ++ "\n\n"
      else if tagName = "h6" then "###### " ++ textContentF cs ++ "\n\n"
      else if tagName = "p" then textContentF cs ++ "\n\n"
      else if tagName = "strong" || tagName = "b" then "**" ++ textContentF cs ++ "**"
      else if tagName = "em" || tagName = "i" then "*" ++ textContentF cs ++ "*"
      else if tagName = "a" then
        "[" ++ textContentF cs ++ "](" ++ (getAttr (.elem t a cs) "href").getD "" ++ ")"
      else if tagName = "img" then
        "![" ++ (getAttr (.elem t a cs) "alt").getD "" ++ "]("
          ++ (getAttr (.elem t a cs) "src").getD "" ++ ")\n\n"
      else if tagName = "ul" then processListItems (.elem t a cs) "-" ++ "\n"
      else if tagName = "ol" then processListItems (.elem t a cs) "1." ++ "\n"
      else if tagName = "blockquote" then "> " ++ textContentF cs ++ "\n\n"
      else if tagName = "code" then "`" ++ textContentF cs ++ "`"
      else if tagName = "pre" then "```\n" ++ textContentF cs ++ "\n```\n\n"
      else forestToMarkdown cs
/-- The concatenated markdown of a forest of sibling child nodes. -/
def forestToMarkdown : List XNode → String
  | [] => ""
  | n :: ns => nodeToMarkdown n ++ forestToMarkdown ns
end

/-- Embeds `URLToMarkdownConverter.htmlToMarkdown(element)`: the concatenated
markdown of the element's children. -/
def htmlToMarkdown (el : XNode) : String := forestToMarkdown (children el)

/-- The metadata record returned by `convertHTMLToMarkdown`. -/
structure PageMetadata where
  title : String
  author : String
  description : String
  url : String
  extractedAt : String
deriving Repr, DecidableEq

/-- The `{markdown, title, metadata}` result of `convertHTMLToMarkdown`. -/
structure ConversionResult where
  markdown : String
  title : String
  metadata : PageMetadata
deriving Repr, DecidableEq

/-- Embeds `URLToMarkdownConverter.convertHTMLToMarkdown(html, originalUrl)`
on the parsed document: metadata extraction from the original document, the
removal pass, content-root selection with `doc.body` fallback, markdown
conversion of the root, and the metadata record. The clock read
`new Date().toISOString()` is the explicit argument `now`. -/
def convertHTMLToMarkdown (doc : List XNode) (originalUrl : String) (now : String) :
    ConversionResult :=
  let title := jsOr (match qselDoc doc (isTag "title") with
    | some el => textContentN el
    | none => "") "Untitled Article"
  let author := jsOr (match qselDoc doc (matchesSel (.attrSel "meta" "name" "author")) with
    | some el => (getAttr el "content").getD ""
    | none => "") ""
  let description := jsOr (match qselDoc doc (matchesSel (.attrSel "meta" "name" "description")) with
    | some el => (getAttr el "content").getD ""
    | none => "") ""
  let mainContent := contentRootOf doc
  let markdown := match mainContent with
    | some el => htmlToMarkdown el
    | none => ""
  { markdown := markdown
    title := title
    metadata :=
      { title := title, author := author, description := description,
        url := originalUrl, extractedAt := now } }

/-- Stated from the claim's words (spec §4.2): the content root is the first
match in the fixed priority order `article`, `main`, `.content`, `.post`,
`.entry` over the given document, and the document body when none match. -/
def specPriorityRoot (doc : List XNode) : Option XNode :=
  ((((((qselDoc doc (matchesSel (.tagSel "article"))).orElse
    (fun _ => qselDoc doc (matchesSel (.tagSel "main")))).orElse
    (fun _ => qselDoc doc (matchesSel (.classSel "content")))).orElse
    (fun _ => qselDoc doc (matchesSel (.classSel "post")))).orElse
    (fun _ => qselDoc doc (matchesSel (.classSel "entry")))).orElse
    (fun _ => docBody doc))

/-- A stored highlight (`Highlight` in `src/services/storageService.ts`). -/
structure Highlight where
  id : String
  articleId : String
  text : String
  color : String
  note : Option String
  position : Nat
deriving Repr, DecidableEq

/-- A stored article (`Article` in `src/services/storageService.ts`). -/
structure Article where
  id : String
  feedId : Option String
  title : String
  author : Option String
  publishDate : Nat
  content : String
  summary : Option String
  url : String
  isRead : Bool
  tags : List String
  notes : Option String
  highlights : Option (List Highlight)
deriving Repr, DecidableEq

/-- An article record before an identifier is assigned
(`Omit<Article, 'id'>`, the argument of `saveArticle`). -/
structure ArticleData where
  feedId : Option String
  title : String
  author : Option String
  publishDate : Nat
  content : String
  summary : Option String
  url : String
  isRead : Bool
  tags : List String
  notes : Option String
  highlights : Option (List Highlight)
deriving Repr, DecidableEq

/-- Embeds the spread `{ ...article, id }` in `saveArticle`. -/
def ArticleData.withId (d : ArticleData) (id : String) : Article :=
  { id := id, feedId := d.feedId, title := d.title, author := d.author,
    publishDate := d.publishDate, content := d.content, summary := d.summary,
    url := d.url, isRead := d.isRead, tags := d.tags, notes := d.notes,
    highlights := d.highlights }

/-- A stored feed (`Feed` in `src/services/storageService.ts`). -/
structure Feed where
  id : String
  url : String
  title : String
  description : String
  category : String
  lastUpdated : Nat
  updateInterval : Nat
  favicon : Option String
deriving Repr, DecidableEq

/-- A feed record before an identifier is assigned (`Omit<Feed, 'id'>`). -/
structure FeedData where
  url : String
  title : String
  description : String
  category : String
  lastUpdated : Nat
  updateInterval : Nat
  favicon : Option String
deriving Repr, DecidableEq

/-- Embeds the spread `{ ...feed, id }` in `saveFeed`. -/
def FeedData.withId (d : FeedData) (id : String) : Feed :=
  { id := id, url := d.url, title := d.title, description := d.description,
    category := d.category, lastUpdated := d.lastUpdated,
    updateInterval := d.updateInterval, favicon := d.favicon }

/-- Failures of the storage layer: `notInitialized` is the
`reject(new Error('Database not initialized'))` taken when `this.db` is null
(the spec's `NotInitialized`); `constraintViolation` is IndexedDB's
`ConstraintError`, with which `store.add` rejects on a duplicate key. -/
inductive StoreError where
  | notInitialized
  | constraintViolation
deriving Repr, DecidableEq

/-- The contents of the IndexedDB object stores the claims touch. -/
structure DBData where
  articles : List Article
  feeds : List Feed
deriving Repr, DecidableEq

/-- The state of `StorageService`: `db` is `none` before `init` completes
(the uninitialized state) and holds the stored data once ready. -/
structure StoreState where
  db : Option DBData
deriving Repr, DecidableEq

/-- The article identifier built by `saveArticle`:
`` `article_${Date.now()}_${Math.random().toString(36).substr(2, 9)}` ``.
The non-deterministic suffix `${Date.now()}_${Math.random()...}` drawn from
the clock and the random generator is the explicit `entropy` argument. -/
def genArticleId (entropy : String) : String := "article_" ++ entropy

/-- The feed identifier built by `saveFeed`, with prefix `feed_`. -/
def genFeedId (entropy : String) : String := "feed_" ++ entropy

/-- Embeds `StorageService.saveArticle`: reject with `notInitialized` when the
store is not ready; otherwise `store.add` the record under the generated
identifier — `add` rejects with a constraint error when the key already
exists — and resolve with the identifier. Mutating operations return the
resulting state alongside the result; on rejection the state is unchanged. -/
def saveArticle (s : StoreState) (d : ArticleData) (entropy : String) :
    Except StoreError String × StoreState :=
  let id := genArticleId entropy
  match s.db with
  | none => (.error .notInitialized, s)
  | some db =>
      if db.articles.any (fun a => a.id = id) then (.error .constraintViolation, s)
      else (.ok id, { db := some { db with articles := db.articles ++ [d.withId id] } })

/-- Embeds `StorageService.getArticles`: all stored articles, or
`notInitialized` before `init`. -/
def getArticles (s : StoreState) : Except StoreError (List Article) :=
  match s.db with
  | none => .error .notInitialized
  | some db => .ok db.articles

/-- Embeds `StorageService.updateArticle`: `store.put` keyed on `article.id`
(overwrite when the key exists, insert otherwise), or `notInitialized`. -/
def updateArticle (s : StoreState) (a : Article) : Except StoreError Unit × StoreState :=
  match s.db with
  | none => (.error .notInitialized, s)
  | some db =>
      if db.articles.any (fun x => x.id = a.id) then
        (.ok (), { db := some { db with
          articles := db.articles.map (fun x => if x.id = a.id then a else x) } })
      else
        (.ok (), { db := some { db with articles := db.articles ++ [a] } })

/-- Embeds `StorageService.deleteArticle`: `store.delete(id)` (succeeds also
when the key is absent), or `notInitialized`. -/
def deleteArticle (s : StoreState) (id : String) : Except StoreError Unit × StoreState :=
  match s.db with
  | none => (.error .notInitialized, s)
  | some db =>
      (.ok (), { db := some { db with articles := db.articles.filter (fun x => x.id ≠ id) } })

/-- Embeds `StorageService.saveFeed`, analogous to `saveArticle`. -/
def saveFeed (s : StoreState) (d : FeedData) (entropy : String) :
    Except StoreError String × StoreState :=
  let id := genFeedId entropy
  match s.db with
  | none => (.error .notInitialized, s)
  | some db =>
      if db.feeds.any (fun f => f.id = id) then (.error .constraintViolation, s)
      else (.ok id, { db := some { db with feeds := db.feeds ++ [d.withId id] } })

/-- Embeds `StorageService.getFeeds`. -/
def getFeeds (s : StoreState) : Except StoreError (List Feed) :=
  match s.db with
  | none => .error .notInitialized
  | some db => .ok db.feeds

/-- Embeds `StorageService.searchArticles(query)`: `getArticles`, then keep
the articles whose lowercased title, content, summary (when present), or some
tag includes the lowercased query as a substring. -/
def searchArticles (s : StoreState) (query : String) : Except StoreError (List Article) :=
  match getArticles s with
  | .error e => .error e
  | .ok articles =>
      let lowercaseQuery := lowerStr query
      .ok (articles.filter (fun article =>
        strIncludes (lowerStr article.title) lowercaseQuery
        || strIncludes (lowerStr article.content) lowercaseQuery
        || (match article.summary with
            | some sum => strIncludes (lowerStr sum) lowercaseQuery
            | none => false)
        || article.tags.any (fun tag => strIncludes (lowerStr tag) lowercaseQuery)))

/-- One mutating store call, with the entropy of each save made explicit;
used to talk about the history of identifiers generated by earlier calls. -/
inductive StoreOp where
  | saveArt (d : ArticleData) (entropy : String)
  | updateArt (a : Article)
  | deleteArt (id : String)
  | saveFd (d : FeedData) (entropy : String)
deriving Repr

/-- The state after one store call (a rejected call leaves the state as is,
which is how the operations themselves are defined). -/
def applyOp (s : StoreState) : StoreOp → StoreState
  | .saveArt d e => (saveArticle s d e).2
  | .updateArt a => (updateArticle s a).2
  | .deleteArt id => (deleteArticle s id).2
  | .saveFd d e => (saveFeed s d e).2

/-- The state after a sequence of store calls. -/
def runOps (s : StoreState) : List StoreOp → StoreState
  | [] => s
  | op :: ops => runOps (applyOp s op) ops

/-- The article identifiers returned by the successful `saveArticle` calls of
a call sequence, in call order. -/
def generatedArticleIds (s : StoreState) : List StoreOp → List String
  | [] => []
  | .saveArt d e :: ops =>
      match saveArticle s d e with
      | (.ok id, s') => id :: generatedArticleIds s' ops
      | (.error _, s') => generatedArticleIds s' ops
  | op :: ops => generatedArticleIds (applyOp s op) ops

/-- The argument of `AISummarizer.summarizeText` (`SummarizeRequest`,
with the optional `prompt` of the later revision of the service). -/
structure SummarizeRequest where
  content : String
  apiKey : String
  model : String
  prompt : Option String
deriving Repr, DecidableEq

/-- The `DEFAULT_PROMPT` template literal of `AISummarizer`. -/
def defaultPrompt : String :=
  "Please provide a comprehensive summary of the following article. Focus on the main points, key insights, and important details. Make the summary clear and well-structured:\n\n"

/-- The HTTP POST `summarizeText` issues to the chat-completion endpoint:
URL, the headers it sets, and the JSON body fields. The float literal
`temperature: 0.7` is carried verbatim as text. -/
structure SummarizerHttpRequest where
  url : String
  bearerToken : String
  httpReferer : String
  xTitle : String
  model : String
  userMessage : String
  temperature : String
  maxTokens : Nat
deriving Repr, DecidableEq

/-- The `message` object inside a response choice. -/
structure ChatChoiceMessage where
  content : String
deriving Repr, DecidableEq

/-- One element of the response's `choices` array; `message` may be absent
(the source reads it with optional chaining). -/
structure ChatChoice where
  message : Option ChatChoiceMessage
deriving Repr, DecidableEq

/-- The response the network oracle returns for the summarization POST:
`ok`/`statusText` of the fetch `Response` and the parsed JSON `choices`. -/
structure SummarizerHttpResponse where
  ok : Bool
  statusText : String
  choices : List ChatChoice
deriving Repr, DecidableEq

/-- Failures of the summarizer: `missingCredential` is the local
`throw new Error('API key is required')` (the spec's `MissingCredential`);
`apiFailure` carries the message built from the HTTP status text for a
non-2xx response. -/
inductive SummarizerError where
  | missingCredential
  | apiFailure (msg : String)
deriving Repr, DecidableEq

/-- The request object `summarizeText` passes to `fetch`: fixed endpoint and
headers (`window.location.origin` is the explicit `origin` argument), and the
JSON body with the chosen prompt prepended to the content. -/
def buildSummarizeHttpRequest (req : SummarizeRequest) (origin : String) :
    SummarizerHttpRequest :=
  { url := "https://openrouter.ai/api/v1/chat/completions"
    bearerToken := "Bearer " ++ req.apiKey
    httpReferer := origin
    xTitle := "ReadLater App"
    model := req.model
    userMessage := (match req.prompt with
      | some p => jsOr p defaultPrompt
      | none => defaultPrompt) ++ req.content
    temperature := "0.7"
    maxTokens := 1000 }

/-- Embeds `AISummarizer.summarizeText`: reject locally with
`missingCredential` when the API key is falsy, issuing no request; otherwise
POST to the endpoint (the network is the oracle `net`), reject with
`apiFailure` on a non-ok response, and otherwise read
`data.choices[0]?.message?.content || 'No summary generated'`.
The second component lists the network requests actually issued. -/
def summarizeText (req : SummarizeRequest) (origin : String)
    (net : SummarizerHttpRequest → SummarizerHttpResponse) :
    Except SummarizerError String × List SummarizerHttpRequest :=
  if req.apiKey = "" then (.error .missingCredential, [])
  else
    let httpReq := buildSummarizeHttpRequest req origin
    let response := net httpReq
    if response.ok = false then
      (.error (.apiFailure ("API request failed: " ++ response.statusText)), [httpReq])
    else
      let summary := match response.choices.head? with
        | some c =>
            match c.message with
            | some m => jsOr m.content "No summary generated"
            | none => "No summary generated"
        | none => "No summary generated"
      (.ok summary, [httpReq])

/-! Helper lemmas shared by the claim theorems. -/

theorem jsOrE_ok_ok (a b : String) :
    jsOrE (.ok a) (fun _ => .ok b) = .ok (jsOr a b) := by
  by_cases h : a = "" <;> simp [jsOrE, jsOr, h]

theorem except_bind_ok {ε α β : Type} (a : α) (f : α → Except ε β) :
    (Except.ok a : Except ε α) >>= f = f a := rfl

theorem except_bind_error {ε α β : Type} (e : ε) (f : α → Except ε β) :
    (Except.error e : Except ε α) >>= f = .error e := rfl

theorem getTextContent_ok (p : XNode) (t : String) (h : selectorThrows t = false) :
    getTextContent p t = .ok (tagText p t) := by
  simp [getTextContent, h]

theorem getAttributeContent_ok (p : XNode) (t a : String)
    (h : selectorThrows t = false) :
    getAttributeContent p t a = .ok (tagAttr p t a) := by
  simp [getAttributeContent, h]

theorem getTextContent_throws (p : XNode) (t : String) (h : selectorThrows t = true) :
    getTextContent p t = .error (.selectorSyntax t) := by
  simp [getTextContent, h]

mutual
theorem collectN_eq_filter (p : XNode → Bool) (hp : ∀ s, p (XNode.text s) = false) :
    ∀ n : XNode, collectN p n = (preorderN n).filter p
  | .text s => by simp [collectN, preorderN, hp]
  | .elem t a cs => by
      cases h : p (.elem t a cs) <;>
        simp [collectN, preorderN, List.filter_cons, h,
          collectF_eq_filter p hp cs]
theorem collectF_eq_filter (p : XNode → Bool) (hp : ∀ s, p (XNode.text s) = false) :
    ∀ l : List XNode, collectF p l = (preorderF l).filter p
  | [] => rfl
  | n :: ns => by
      simp [collectF, preorderF, List.filter_append,
        collectN_eq_filter p hp n, collectF_eq_filter p hp ns]
end

theorem parseRSSItem_not_malformed (x : XNode) :
    parseRSSItem x ≠ .error .malformedFeed := by
  simp only [parseRSSItem,
    getTextContent_ok x "title" rfl, getTextContent_ok x "link" rfl,
    getAttributeContent_ok x "link" "href" rfl,
    getTextContent_ok x "description" rfl, getTextContent_ok x "summary" rfl,
    getTextContent_ok x "content" rfl, getTextContent_ok x "pubDate" rfl,
    getTextContent_ok x "published" rfl, getTextContent_ok x "updated" rfl,
    getTextContent_ok x "author" rfl, getTextContent_throws x "dc:creator" rfl,
    getTextContent_ok x "guid" rfl, getTextContent_ok x "id" rfl,
    jsOrE_ok_ok, except_bind_ok]
  by_cases ha : tagText x "author" = "" <;>
    simp [jsOrE, ha, except_bind_ok, except_bind_error]

theorem mapExcept_parseRSSItem_not_malformed (l : List XNode) :
    mapExcept parseRSSItem l ≠ .error .malformedFeed := by
  induction l with
  | nil => simp [mapExcept]
  | cons x xs ih =>
      unfold mapExcept
      cases hpi : parseRSSItem x with
      | error e =>
          simp only []
          intro he
          exact parseRSSItem_not_malformed x (by rw [hpi, Except.error.inj he])
      | ok v =>
          cases hm : mapExcept parseRSSItem xs with
          | ok vs => simp
          | error e =>
              simp only []
              intro he
              exact ih (by rw [hm, Except.error.inj he])

theorem parseRSS_container_not_malformed (doc : List XNode) (ch : XNode)
    (ho : (qselDoc doc (isTag "channel")).orElse (fun _ => qselDoc doc (isTag "feed"))
      = some ch) :
    parseRSS doc ≠ .error .malformedFeed := by
  unfold parseRSS
  rw [ho]
  simp only [getTextContent_ok ch "title" rfl, getTextContent_ok ch "description" rfl,
    getTextContent_ok ch "subtitle" rfl, getTextContent_ok ch "link" rfl,
    jsOrE_ok_ok, except_bind_ok]
  cases hm : mapExcept parseRSSItem (collectF isEntryLike doc) with
  | ok items => simp [except_bind_ok]
  | error e =>
      rw [except_bind_error]
      intro he
      exact mapExcept_parseRSSItem_not_malformed (collectF isEntryLike doc)
        (hm.trans (by rw [Except.error.inj he]))

theorem strIncludes_empty_pat (x : String) : strIncludes x "" = true := by
  unfold strIncludes
  rw [List.any_eq_true]
  exact ⟨0, by simp, rfl⟩

theorem genArticleId_inj {e e' : String} (h : genArticleId e = genArticleId e') : e = e' := by
  unfold genArticleId at h
  obtain ⟨ed⟩ := e
  obtain ⟨ed'⟩ := e'
  have hd := congrArg String.data h
  simp only [String.data_append] at hd
  exact congrArg String.mk (List.append_cancel_left hd)

theorem saveArticle_ok_shape {s : StoreState} {d : ArticleData} {e : String}
    {id : String} {s' : StoreState} (h : saveArticle s d e = (.ok id, s')) :
    id = genArticleId e
    ∧ ∃ db : DBData, s.db = some db
        ∧ db.articles.any (fun a => a.id = genArticleId e) = false
        ∧ s' = { db := some { db with
            articles := db.articles ++ [d.withId (genArticleId e)] } } := by
  unfold saveArticle at h
  cases hdb : s.db with
  | none => rw [hdb] at h; simp at h
  | some db =>
      rw [hdb] at h
      simp only at h
      by_cases hdup : db.articles.any (fun a => a.id = genArticleId e) = true
      · rw [if_pos hdup] at h
        simp at h
      · rw [if_neg hdup] at h
        obtain ⟨h1, h2⟩ := Prod.mk.injEq .. ▸ h
        refine ⟨(Except.ok.inj h1).symm, db, rfl, by simpa using hdup, h2.symm⟩

theorem generatedArticleIds_from_saves (ops : List StoreOp) : ∀ (s : StoreState) (id : String),
    id ∈ generatedArticleIds s ops → ∃ d e, StoreOp.saveArt d e ∈ ops ∧ id = genArticleId e := by
  induction ops with
  | nil => intro s id h; simp [generatedArticleIds] at h
  | cons op rest ih =>
      intro s id h
      cases op with
      | saveArt d e =>
          rcases hsv : saveArticle s d e with ⟨r, s2⟩
          cases r with
          | ok id' =>
              rw [generatedArticleIds, hsv] at h
              rcases List.mem_cons.mp h with h1 | h2
              · exact ⟨d, e, by simp, h1.trans (saveArticle_ok_shape hsv).1⟩
              · obtain ⟨d', e', hin, hid⟩ := ih s2 id h2
                exact ⟨d', e', by simp [hin], hid⟩
          | error err =>
              rw [generatedArticleIds, hsv] at h
              obtain ⟨d', e', hin, hid⟩ := ih s2 id h
              exact ⟨d', e', by simp [hin], hid⟩
      | updateArt a =>
          obtain ⟨d', e', hin, hid⟩ := ih (applyOp s (.updateArt a)) id h
          exact ⟨d', e', by simp [hin], hid⟩
      | deleteArt i =>
          obtain ⟨d', e', hin, hid⟩ := ih (applyOp s (.deleteArt i)) id h
          exact ⟨d', e', by simp [hin], hid⟩
      | saveFd f e =>
          obtain ⟨d', e', hin, hid⟩ := ih (applyOp s (.saveFd f e)) id h
          exact ⟨d', e', by simp [hin], hid⟩

/-! Concrete sample values used by the witnesses. -/

/-- A sample article record without an identifier. -/
def sampleArticleData : ArticleData :=
  { feedId := none, title := "Getting Started", author := some "Tech Writer",
    publishDate := 1700000000, content := "Body text", summary := none,
    url := "https://example.com/article1", isRead := false,
    tags := ["rss"], notes := none, highlights := none }

/-- A second sample article record with different fields. -/
def sampleArticleData2 : ArticleData :=
  { feedId := some "feed_1", title := "Knowledge Base", author := none,
    publishDate := 1700000100, content := "More text", summary := some "short",
    url := "https://example.com/article2", isRead := true,
    tags := ["notes", "pkm"], notes := some "check later", highlights := none }

/-- A sample feed record without an identifier. -/
def sampleFeedData : FeedData :=
  { url := "https://example.com/feed.xml", title := "Example Feed",
    description := "demo", category := "tech", lastUpdated := 1700000000,
    updateInterval := 60, favicon := none }

/-- C2: for every input document, `parseRSS` fails with the `MalformedFeed`
error exactly when the document contains neither a `channel` nor a `feed`
element; `MalformedFeed` is distinct from every transport/network error. -/
theorem parseRSS_malformedFeed_iff (doc : List XNode) :
    (parseRSS doc = .error .malformedFeed
      ↔ (qselDoc doc (isTag "channel") = none ∧ qselDoc doc (isTag "feed") = none))
    ∧ ∀ msg, RSSError.malformedFeed ≠ RSSError.transport msg := by
  constructor
  · constructor
    · intro h
      cases hc : qselDoc doc (isTag "channel") with
      | some ch =>
          exact absurd h (parseRSS_container_not_malformed doc ch
            (by simp [Option.orElse, hc]))
      | none =>
          cases hf : qselDoc doc (isTag "feed") with
          | some ch =>
              exact absurd h (parseRSS_container_not_malformed doc ch
                (by simp [Option.orElse, hc, hf]))
          | none => exact ⟨rfl, rfl⟩
    · rintro ⟨hc, hf⟩
      unfold parseRSS
      rw [show (qselDoc doc (isTag "channel")).orElse
            (fun _ => qselDoc doc (isTag "feed")) = none
          by simp [Option.orElse, hc, hf]]
  · intro msg h
    exact RSSError.noConfusion h

/-- C6: `summarizeText` with an empty API key fails locally with the
`MissingCredential` error and issues no network request; a network request
is issued exactly when the API key is non-empty. -/
theorem summarize_missingCredential_local (req : SummarizeRequest) (origin : String)
    (net : SummarizerHttpRequest → SummarizerHttpResponse) :
    (req.apiKey = "" → summarizeText req origin net = (.error .missingCredential, []))
    ∧ ((summarizeText req origin net).2 ≠ [] ↔ req.apiKey ≠ "") := by
  constructor
  · intro h
    simp [summarizeText, h]
  · by_cases h : req.apiKey = ""
    · simp [summarizeText, h]
    · cases hok : (net (buildSummarizeHttpRequest req origin)).ok <;>
        simp [summarizeText, h, hok]

/-- C6 witness: the local rejection at a concrete empty-key request. -/
theorem summarize_missingCredential_local_witness :
    summarizeText { content := "body", apiKey := "", model := "m", prompt := none }
        "https://app.local" (fun _ => { ok := true, statusText := "OK", choices := [] })
      = (.error .missingCredential, []) :=
  (summarize_missingCredential_local
    { content := "body", apiKey := "", model := "m", prompt := none }
    "https://app.local" (fun _ => { ok := true, statusText := "OK", choices := [] })).1 rfl

/-- C8: on an uninitialized store every operation except `init` rejects with
the `NotInitialized` error, and each mutating operation leaves the state
unchanged (the read-only operations return no state at all). -/
theorem store_uninitialized_rejects (s : StoreState) (h : s.db = none) :
    (∀ d e, saveArticle s d e = (.error .notInitialized, s))
    ∧ getArticles s = .error .notInitialized
    ∧ (∀ a, updateArticle s a = (.error .notInitialized, s))
    ∧ (∀ id, deleteArticle s id = (.error .notInitialized, s))
    ∧ (∀ d e, saveFeed s d e = (.error .notInitialized, s))
    ∧ getFeeds s = .error .notInitialized
    ∧ (∀ q, searchArticles s q = .error .notInitialized) := by
  refine ⟨fun d e => ?_, ?_, fun a => ?_, fun id => ?_, fun d e => ?_, ?_, fun q => ?_⟩ <;>
    simp [saveArticle, getArticles, updateArticle, deleteArticle, saveFeed,
      getFeeds, searchArticles, h]

/-- C8 witness: the seven operations applied to the uninitialized state. -/
theorem store_uninitialized_rejects_witness :
    saveArticle ⟨none⟩ sampleArticleData "e0" = (.error .notInitialized, ⟨none⟩)
    ∧ getArticles ⟨none⟩ = .error .notInitialized
    ∧ updateArticle ⟨none⟩ (sampleArticleData.withId "a1") = (.error .notInitialized, ⟨none⟩)
    ∧ deleteArticle ⟨none⟩ "a1" = (.error .notInitialized, ⟨none⟩)
    ∧ saveFeed ⟨none⟩ sampleFeedData "e0" = (.error .notInitialized, ⟨none⟩)
    ∧ getFeeds ⟨none⟩ = .error .notInitialized
    ∧ searchArticles ⟨none⟩ "q" = .error .notInitialized := by
  obtain ⟨h1, h2, h3, h4, h5, h6, h7⟩ := store_uninitialized_rejects ⟨none⟩ rfl
  exact ⟨h1 sampleArticleData "e0", h2, h3 (sampleArticleData.withId "a1"), h4 "a1",
    h5 sampleFeedData "e0", h6, h7 "q"⟩

/-- C9: on an initialized store, `searchArticles` with the empty query
returns every stored article — the case-insensitive substring test is
vacuously satisfied by the empty string. -/
theorem searchArticles_empty_query (s : StoreState) (db : DBData) (h : s.db = some db) :
    searchArticles s "" = .ok db.articles := by
  simp only [searchArticles, getArticles, h]
  congr 1
  rw [List.filter_eq_self]
  intro a _
  simp [strIncludes_empty_pat, show lowerStr "" = "" from rfl]

/-- C9 witness: the empty query over a store holding one article. -/
theorem searchArticles_empty_query_witness :
    searchArticles ⟨some ⟨[sampleArticleData.withId "article_w9"], []⟩⟩ ""
      = .ok [sampleArticleData.withId "article_w9"] :=
  searchArticles_empty_query ⟨some ⟨[sampleArticleData.withId "article_w9"], []⟩⟩
    ⟨[sampleArticleData.withId "article_w9"], []⟩ rfl

/-- The list element `<ol><li>A</li><li>B</li></ol>`. -/
def olListElem : XNode :=
  .elem "ol" [] [.elem "li" [] [.text "A"], .elem "li" [] [.text "B"]]

/-- The list element `<ul><li>A</li><li>B</li></ul>`. -/
def ulListElem : XNode :=
  .elem "ul" [] [.elem "li" [] [.text "A"], .elem "li" [] [.text "B"]]

/-- A parsed HTML document whose body is `<ol><li>A</li><li>B</li></ol>`. -/
def olBodyDoc : List XNode :=
  [.elem "html" [] [.elem "head" [] [], .elem "body" [] [olListElem]]]

/-- A parsed HTML document whose body is `<ul><li>A</li><li>B</li></ul>`. -/
def ulBodyDoc : List XNode :=
  [.elem "html" [] [.elem "head" [] [], .elem "body" [] [ulListElem]]]

/-- C3 counterexample: for the body `<ol><li>A</li><li>B</li></ol>` the
conversion's output is not the claimed string — the converter emits one
extra newline after the list. -/
theorem listConversion_exact_output_refuted :
    (convertHTMLToMarkdown olBodyDoc "https://example.com" "2024-01-01T00:00:00.000Z").markdown
      ≠ "1. A\n2. B\n" := by decide

/-- C3 (amended): for the body `<ol><li>A</li><li>B</li></ol>` the conversion
outputs exactly the per-item lines `1. A\n2. B\n` (1-based, document order)
followed by one extra newline; for the same items in a `<ul>` the marker is
`-` for every item, again with the extra trailing newline. -/
theorem listConversion_output :
    (convertHTMLToMarkdown olBodyDoc "https://example.com" "2024-01-01T00:00:00.000Z").markdown
      = "1. A\n2. B\n\n"
    ∧ processListItems olListElem "1." = "1. A\n2. B\n"
    ∧ (convertHTMLToMarkdown ulBodyDoc "https://example.com" "2024-01-01T00:00:00.000Z").markdown
      = "- A\n- B\n\n"
    ∧ processListItems ulListElem "-" = "- A\n- B\n" := by
  refine ⟨?_, ?_, ?_, ?_⟩ <;> rfl

/-- C4 counterexample: two conversions of the same document and URL at
different clock readings give different results (their metadata differs in
`extractedAt`), so the result is not independent of when the call happens. -/
theorem convertHTML_time_dependence :
    convertHTMLToMarkdown [] "https://example.com" "2024-01-01T00:00:00.000Z"
      ≠ convertHTMLToMarkdown [] "https://example.com" "2024-01-02T00:00:00.000Z" := by
  decide

/-- C4 (amended): `convertHTMLToMarkdown` is pure and deterministic given its
input document and URL in every output component except the timestamp: the
markdown, the title, and every metadata field other than `extractedAt` are
independent of the clock, and `extractedAt` equals the conversion time. -/
theorem convertHTML_pure_except_extractedAt (doc : List XNode) (url now now' : String) :
    (convertHTMLToMarkdown doc url now).markdown
        = (convertHTMLToMarkdown doc url now').markdown
    ∧ (convertHTMLToMarkdown doc url now).title
        = (convertHTMLToMarkdown doc url now').title
    ∧ (convertHTMLToMarkdown doc url now).metadata.title
        = (convertHTMLToMarkdown doc url now').metadata.title
    ∧ (convertHTMLToMarkdown doc url now).metadata.author
        = (convertHTMLToMarkdown doc url now').metadata.author
    ∧ (convertHTMLToMarkdown doc url now).metadata.description
        = (convertHTMLToMarkdown doc url now').metadata.description
    ∧ (convertHTMLToMarkdown doc url now).metadata.url
        = (convertHTMLToMarkdown doc url now').metadata.url
    ∧ (convertHTMLToMarkdown doc url now).metadata.extractedAt = now :=
  ⟨rfl, rfl, rfl, rfl, rfl, rfl, rfl⟩

/-- The tag of the element an optional content root holds, for telling two
selection outcomes apart. -/
def optTag : Option XNode → String
  | some (.elem t _ _) => t
  | some (.text _) => ""
  | none => ""

/-- A document with an `article` inside a `nav` (so the removal pass deletes
it) next to a `main` element. -/
def navArticleDoc : List XNode :=
  [.elem "html" [] [.elem "head" [] [],
    .elem "body" [] [.elem "nav" [] [.elem "article" [] [.text "X"]],
                     .elem "main" [] [.text "Y"]]]]

/-- C5 counterexample: the content root actually used is not the first
priority-order match over the input document — here an `article` element
exists in the input, yet the conversion picks the `main` element, because the
removal pass deleted the `nav` together with the `article` inside it before
selection. -/
theorem contentRoot_input_priority_refuted :
    contentRootOf navArticleDoc ≠ specPriorityRoot navArticleDoc := fun h =>
  absurd (congrArg optTag h) (by decide)

/-- C5 (amended): the content root used for markdown conversion is the first
match in the fixed priority order `article`, `main`, `.content`, `.post`,
`.entry`, with the document body as fallback, taken over the document as it
stands after the removal pass; in particular an `article` element is chosen
whenever it survives that pass. -/
theorem contentRoot_post_removal_priority (doc : List XNode) :
    contentRootOf doc = specPriorityRoot (stripF doc) := by
  unfold contentRootOf selectContentRoot specPriorityRoot contentSelectors
  cases h1 : qselDoc (stripF doc) (matchesSel (.tagSel "article")) <;>
  cases h2 : qselDoc (stripF doc) (matchesSel (.tagSel "main")) <;>
  cases h3 : qselDoc (stripF doc) (matchesSel (.classSel "content")) <;>
  cases h4 : qselDoc (stripF doc) (matchesSel (.classSel "post")) <;>
  cases h5 : qselDoc (stripF doc) (matchesSel (.classSel "entry")) <;>
    simp [List.findSome?, h1, h2, h3, h4, h5, Option.orElse]

theorem filter_nil_of_any_false {α : Type} (p : α → Bool) :
    ∀ l : List α, l.any p = false → l.filter p = []
  | [], _ => rfl
  | a :: as, h => by
      rw [List.any_cons, Bool.or_eq_false_iff] at h
      simp [List.filter_cons, h.1, filter_nil_of_any_false p as h.2]

/-- The single `item` of `dcCreatorDoc`: it carries a `dc:creator` element
but no `author` element. -/
def dcCreatorItem : XNode :=
  .elem "item" [] [
    .elem "title" [] [.text "First"],
    .elem "dc:creator" [] [.text "Jane"]]

/-- A well-formed RSS document: one `channel` holding one `item` whose author
is given only by the creator-namespaced field. -/
def dcCreatorDoc : List XNode :=
  [.elem "rss" [] [.elem "channel" [] [
      .elem "title" [] [.text "My Feed"],
      dcCreatorItem]]]

/-- C1: refuted by the code (the claim is the evident intent, the code the
slip) — on a well-formed document whose item carries a `dc:creator` element
but no non-empty `author`, the author fallback evaluates
`querySelector('dc:creator')`, an invalid selector, so `parseRSS` throws the
`SyntaxError` DOMException instead of returning one item whose author is
taken from the creator-namespaced field; the second conjunct shows the
document really does carry that field where a working tag lookup finds it. -/
theorem parseRSS_dcCreator_selector_throws :
    parseRSS dcCreatorDoc = .error (.selectorSyntax "dc:creator")
    ∧ qselIn dcCreatorItem (isTag "dc:creator")
        = some (XNode.elem "dc:creator" [] [XNode.text "Jane"]) :=
  ⟨rfl, rfl⟩

/-- C10: whenever `parseRSS` returns a feed, its item list is exactly the
`item`/`entry` elements of the whole document in document order — collected
over the entire document, not only inside the located `channel`/`feed`
container — each run through the per-item extraction. -/
theorem parseRSS_items_whole_document (doc : List XNode) (f : RSSFeed)
    (h : parseRSS doc = .ok f) :
    mapExcept parseRSSItem (entryElems doc) = .ok f.items := by
  unfold parseRSS at h
  cases ho : (qselDoc doc (isTag "channel")).orElse (fun _ => qselDoc doc (isTag "feed")) with
  | none => rw [ho] at h; simp at h
  | some ch =>
      rw [ho] at h
      simp only [getTextContent_ok ch "title" rfl, getTextContent_ok ch "description" rfl,
        getTextContent_ok ch "subtitle" rfl, getTextContent_ok ch "link" rfl,
        jsOrE_ok_ok, except_bind_ok] at h
      cases hm : mapExcept parseRSSItem (collectF isEntryLike doc) with
      | error e =>
          rw [hm, except_bind_error] at h
          exact absurd h (by simp)
      | ok items =>
          rw [hm, except_bind_ok] at h
          have hitems : items = f.items := congrArg RSSFeed.items (Except.ok.inj h)
          rw [show entryElems doc = collectF isEntryLike doc from
            (collectF_eq_filter isEntryLike (fun s => rfl) doc).symm]
          rw [hm, hitems]

/-- An Atom-style document whose `feed` container holds one `entry`, with a
second `entry` outside the container; both entries carry an `author` element
so the parse completes. -/
def atomOutsideDoc : List XNode :=
  [.elem "root" [] [
     .elem "feed" [] [.elem "title" [] [.text "T"],
        .elem "entry" [] [.elem "title" [] [.text "Inside"],
          .elem "author" [] [.text "Ann"]]],
     .elem "entry" [] [.elem "title" [] [.text "Outside"],
        .elem "author" [] [.text "Bob"]]]]

/-- The feed `parseRSS` produces for `atomOutsideDoc`: both entries appear,
including the one outside the `feed` container. -/
def atomOutsideFeed : RSSFeed :=
  { title := "T", description := "", link := "",
    items := [
      { title := "Inside", link := "", description := "", pubDate := "",
        author := "Ann", guid := "" },
      { title := "Outside", link := "", description := "", pubDate := "",
        author := "Bob", guid := "" }] }

/-- C10 witness: at a concrete document whose second `entry` sits outside the
`feed` container, the parsed items are the whole-document entry list — both
entries, in document order. -/
theorem parseRSS_items_whole_document_witness :
    mapExcept parseRSSItem (entryElems atomOutsideDoc) = .ok atomOutsideFeed.items :=
  parseRSS_items_whole_document atomOutsideDoc atomOutsideFeed rfl

/-- C7: on an initialized store reached by any sequence of store calls whose
article-save entropies all differ from the present one (the source draws the
entropy from the clock and the random generator), a successful `saveArticle`
yields a `getArticles` result in which exactly one record carries the
returned identifier, that record's fields equal the saved fields, and the
returned identifier differs from every identifier generated by the earlier
`saveArticle` calls. -/
theorem saveArticle_roundtrip_fresh (db0 : DBData) (ops : List StoreOp)
    (d : ArticleData) (e : String) (id : String) (s' : StoreState)
    (hfresh : ∀ d' e', StoreOp.saveArt d' e' ∈ ops → e' ≠ e)
    (hsave : saveArticle (runOps ⟨some db0⟩ ops) d e = (.ok id, s')) :
    (∃ l, getArticles s' = .ok l ∧ l.filter (fun a => a.id = id) = [d.withId id])
    ∧ id ∉ generatedArticleIds ⟨some db0⟩ ops := by
  obtain ⟨hid, db, hdb, hdup, hs'⟩ := saveArticle_ok_shape hsave
  subst hid
  subst hs'
  constructor
  · refine ⟨db.articles ++ [d.withId (genArticleId e)], rfl, ?_⟩
    rw [List.filter_append, filter_nil_of_any_false _ db.articles hdup]
    simp [ArticleData.withId]
  · intro hmem
    obtain ⟨d', e', hin, hid'⟩ := generatedArticleIds_from_saves ops ⟨some db0⟩ _ hmem
    exact hfresh d' e' hin (genArticleId_inj hid'.symm)

/-- C7 witness: an empty store, one earlier save with a different entropy,
then the present save; the filter singles out the new record and the new
identifier is not among the earlier generated ones. -/
theorem saveArticle_roundtrip_fresh_witness :
    (∃ l, getArticles ⟨some ⟨[sampleArticleData.withId "article_17000_aaaa",
            sampleArticleData2.withId "article_17001_bbbb"], []⟩⟩ = .ok l
        ∧ l.filter (fun a => a.id = "article_17001_bbbb")
            = [sampleArticleData2.withId "article_17001_bbbb"])
    ∧ "article_17001_bbbb" ∉ generatedArticleIds ⟨some ⟨[], []⟩⟩
        [.saveArt sampleArticleData "17000_aaaa"] :=
  saveArticle_roundtrip_fresh ⟨[], []⟩ [.saveArt sampleArticleData "17000_aaaa"]
    sampleArticleData2 "17001_bbbb" "article_17001_bbbb"
    ⟨some ⟨[sampleArticleData.withId "article_17000_aaaa",
            sampleArticleData2.withId "article_17001_bbbb"], []⟩⟩
    (by
      intro d' e' h hcontra
      rw [List.mem_singleton] at h
      cases h
      exact absurd hcontra (by decide))
    rfl
